import Mathlib

/-!
Verification of the vidmaker pipeline (`src/vmaker.py`).

The program is a three-stage media pipeline driven through the ffmpeg-python
binding: merge videos, overlay a watermark, mix a trimmed audio track, with
intermediate-file cleanup.  We shallowly embed

* the ffmpeg command construction of each stage as a pure function producing
  a command AST (`FVal`, `Strm`, `OutputCmd`);
* the filesystem effects of a pipeline run as explicit state passing over
  `St` (a list of existing file names, a log of deleted names, and a log of
  engine invocations), with fallible steps returning `Option`/`Except`.
-/

namespace Vidmaker

/-- A value passed to the media engine: string, integer, or rational
(embedding Python float literals such as `0.3`). -/
inductive FVal where
  | s : String → FVal
  | i : Int → FVal
  | q : ℚ → FVal
deriving DecidableEq, Repr

/-- An ffmpeg-python stream expression: an input node (with keyword
arguments such as `loop=1`), a filter applied to a stream (positional and
keyword arguments), an n-ary concat node (`v` video / `a` audio stream
counts), or an overlay of one stream on another. -/
inductive Strm where
  | input : String → List (String × FVal) → Strm
  | filt : Strm → String → List FVal → List (String × FVal) → Strm
  | concat : List Strm → Nat → Nat → Strm
  | overlay : Strm → Strm → List (String × FVal) → Strm

/-- A call to `ffmpeg.output(...).run()`: the streams muxed, the destination
path, and the output keyword arguments (`vcodec`, `crf`, `preset`, ...). -/
structure OutputCmd where
  streams : List Strm
  dest : String
  kwargs : List (String × FVal)

/-- Look up a keyword argument by name. -/
def kwlookup (kws : List (String × FVal)) (k : String) : Option FVal :=
  (kws.find? (fun p => p.fst = k)).map (fun p => p.snd)

/-- The first video-stream record returned by `ffmpeg.probe` with
`show_entries='stream=duration,width,height'`: each entry may be absent
from the metadata. -/
structure ProbeStream where
  duration : Option ℚ
  width : Option Int
  height : Option Int
deriving DecidableEq, Repr

/-- `int(probe['streams'][0]['width']) if 'width' in probe['streams'][0]
else 1280` (vmaker.py line 27). -/
def probe_width (ps : ProbeStream) : Int :=
  match ps.width with
  | some w => w
  | none => 1280

/-- `int(probe['streams'][0]['height']) if 'height' in probe['streams'][0]
else 720` (vmaker.py line 28). -/
def probe_height (ps : ProbeStream) : Int :=
  match ps.height with
  | some h => h
  | none => 720

/-- `float(probe['streams'][0]['duration'])` (vmaker.py lines 24 and 46):
a plain dictionary lookup, raising `KeyError` when the entry is absent. -/
def probe_duration (ps : ProbeStream) : Except String ℚ :=
  match ps.duration with
  | some d => Except.ok d
  | none => Except.error "KeyError: duration"

/-- `merge_videos` (vmaker.py lines 7-15): concatenate the inputs in list
order with `v=1, a=1` and encode with `vcodec='libx264', crf=23,
preset='fast', acodec='aac'`. -/
def merge_videos_cmd (video_files : List String) (output_file : String) : OutputCmd :=
  let inputs := video_files.map (fun v => Strm.input v [])
  { streams := [Strm.concat inputs 1 1]
    dest := output_file
    kwargs := [("vcodec", FVal.s "libx264"), ("crf", FVal.i 23),
               ("preset", FVal.s "fast"), ("acodec", FVal.s "aac")] }

/-- `add_watermark` (vmaker.py lines 17-39), as the command it constructs:
the image input loops (`loop=1`), is converted to `rgba`, gets opacity
`aa=0.3` via `colorchannelmixer`, is scaled to `(width, -1)`, trimmed to the
probed duration, and overlaid at `x=0, y="(H-h)/2"`.  A missing `duration`
probe entry raises before any command is issued; `height` is computed (with
its default) exactly as in the source, where it is left unused. -/
def add_watermark_cmd (input_video watermark_image output_video : String)
    (ps : ProbeStream) : Except String OutputCmd :=
  let video := Strm.input input_video []
  let watermark0 :=
    Strm.filt (Strm.filt (Strm.input watermark_image [("loop", FVal.i 1)])
      "format" [FVal.s "rgba"] [])
      "colorchannelmixer" [] [("aa", FVal.q (3/10))]
  match probe_duration ps with
  | Except.error e => Except.error e
  | Except.ok duration =>
    let width := probe_width ps
    let _height := probe_height ps
    let watermark1 := Strm.filt watermark0 "scale" [FVal.i width, FVal.i (-1)] []
    let watermark2 := Strm.filt watermark1 "trim" [] [("duration", FVal.q duration)]
    let output := Strm.overlay video watermark2 [("x", FVal.i 0), ("y", FVal.s "(H-h)/2")]
    Except.ok { streams := [output]
                dest := output_video
                kwargs := [("vcodec", FVal.s "h264_videotoolbox"), ("crf", FVal.i 23),
                           ("preset", FVal.s "fast"), ("acodec", FVal.s "aac")] }

/-- Last index of a character in a list, or `none`; helper for
`os.path.splitext`'s `rfind`. -/
def lastIndexOfAux (l : List Char) (c : Char) (i : Nat) (acc : Option Nat) : Option Nat :=
  match l with
  | [] => acc
  | x :: xs => lastIndexOfAux xs c (i + 1) (if x = c then some i else acc)

/-- `p.rfind(c)` on the character list of a path, as `Option`. -/
def lastIndexOf (l : List Char) (c : Char) : Option Nat :=
  lastIndexOfAux l c 0 none

/-- `os.path.splitext` on the character list: split at the last dot of the
final path component, unless every character of that component before the
dot is itself a dot (so `.bashrc` keeps its name whole). -/
def splitextChars (p : List Char) : List Char × List Char :=
  let sepIndex : Int :=
    match lastIndexOf p '/' with
    | some i => (i : Int)
    | none => -1
  match lastIndexOf p '.' with
  | none => (p, [])
  | some di =>
    if sepIndex < (di : Int) then
      let fi := (sepIndex + 1).toNat
      if ((p.drop fi).take (di - fi)).any (fun ch => ch ≠ '.') then
        (p.take di, p.drop di)
      else
        (p, [])
    else
      (p, [])

/-- `os.path.splitext` on strings (`base, ext = os.path.splitext(input_file)`,
vmaker.py line 66). -/
def splitext (p : String) : String × String :=
  let r := splitextChars p.data
  (String.mk r.fst, String.mk r.snd)

/-- `f"{base}_trimmed{ext}"` (vmaker.py line 67). -/
def trim_audio_output_file (input_file : String) : String :=
  let r := splitext input_file
  r.fst ++ "_trimmed" ++ r.snd

/-- The engine invocation inside `trim_audio`'s `try` block: succeeds or
raises an `ffmpeg.Error` (modelled by its message). -/
def run_trim_engine (engineOk : Bool) (input_file output_file : String)
    (duration : ℚ) : Except String Unit :=
  if engineOk then Except.ok () else Except.error "ffmpeg error"

/-- The command built inside `trim_audio` (vmaker.py lines 70-75):
`input(input_file).output(output_file, t=duration, codec="copy")`. -/
def trim_audio_cmd (input_file : String) (duration : ℚ) : OutputCmd :=
  { streams := [Strm.input input_file []]
    dest := trim_audio_output_file input_file
    kwargs := [("t", FVal.q duration), ("codec", FVal.s "copy")] }

/-- `trim_audio` (vmaker.py lines 56-80): run the engine; on success print
the saved-as message and return the output path, on `ffmpeg.Error` print the
error and return `None`.  The `except` clause is the `match` on the engine's
`Except.error`, so the function itself is total: no exception reaches the
caller.  The second component collects the `print` output. -/
def trim_audio (engineOk : Bool) (input_file : String) (duration : ℚ) :
    Option String × List String :=
  let output_file := trim_audio_output_file input_file
  match run_trim_engine engineOk input_file output_file duration with
  | Except.ok _ => (some output_file, ["Trimmed audio saved as: " ++ output_file])
  | Except.error e => (none, ["Error trimming audio: " ++ e])

/-- `add_audio` (vmaker.py lines 41-54), as the command it constructs: probe
the video duration (raising `KeyError` when absent), trim the audio, then
output video + trimmed audio with the fixed encoding settings.  When
`trim_audio` returned `None` the source passes `None` to `ffmpeg.input`,
which fails when the command is assembled and run. -/
def add_audio_cmd (input_video audio_file output_video : String)
    (ps : ProbeStream) (trimEngineOk : Bool) : Except String OutputCmd :=
  match probe_duration ps with
  | Except.error e => Except.error e
  | Except.ok duration =>
    match (trim_audio trimEngineOk audio_file duration).fst with
    | none => Except.error "ffmpeg input is None"
    | some trimmed =>
      Except.ok { streams := [Strm.input input_video [], Strm.input trimmed []]
                  dest := output_video
                  kwargs := [("vcodec", FVal.s "h264_videotoolbox"), ("crf", FVal.i 23),
                             ("preset", FVal.s "fast"), ("acodec", FVal.s "aac")] }

/-- The filesystem-level state of a pipeline run: `fs` is the set of file
names that currently exist (as a list), `deleted` logs every file removed by
`os.remove`, and `calls` logs every engine-stage invocation. -/
structure St where
  fs : List String
  deleted : List String
  calls : List String
deriving DecidableEq, Repr

/-- `os.remove`: fails when the file does not exist; otherwise removes it
and logs the deletion. -/
def os_remove (st : St) (f : String) : Option St :=
  if f ∈ st.fs then
    some { st with fs := st.fs.filter (fun x => x ≠ f), deleted := st.deleted ++ [f] }
  else
    none

/-- One iteration of the loop in `clean_up_files` (vmaker.py lines 93-98):
remove the file only if `os.path.exists` says it is there. -/
def clean_up_step (st : St) (f : String) : Option St :=
  if f ∈ st.fs then os_remove st f else some st

/-- `clean_up_files(*files)` (vmaker.py lines 87-98): the loop over the
argument list, propagating any `os.remove` failure. -/
def clean_up_files (files : List String) (st : St) : Option St :=
  match files with
  | [] => some st
  | f :: rest =>
    match clean_up_step st f with
    | none => none
    | some st1 => clean_up_files rest st1

/-- The total sweep that `clean_up_files` performs (proved equal to it
below): remove each listed file if present, logging the deletion. -/
def sweep_step (st : St) (f : String) : St :=
  if f ∈ st.fs then
    { st with fs := st.fs.filter (fun x => x ≠ f), deleted := st.deleted ++ [f] }
  else
    st

/-- Iterated `sweep_step` over the file list. -/
def sweepSt (files : List String) (st : St) : St :=
  match files with
  | [] => st
  | f :: rest => sweepSt rest (sweep_step st f)

/-- Creating (or overwriting) a file: the name is in `fs` afterwards. -/
def addFile (st : St) (f : String) : St :=
  { st with fs := if f ∈ st.fs then st.fs else f :: st.fs }

/-- Log one engine-stage invocation. -/
def callSt (st : St) (c : String) : St :=
  { st with calls := st.calls ++ [c] }

/-- Which engine invocations succeed during one run: the merge encode, the
watermark encode, the audio trim, and the final mux. -/
structure Engine where
  mergeOk : Bool
  watermarkOk : Bool
  trimOk : Bool
  muxOk : Bool
deriving DecidableEq, Repr

/-- `merged_video = "merged.mp4"` (vmaker.py line 101). -/
def merged_video : String := "merged.mp4"

/-- `watermarked_video = "watermarked.mp4"` (vmaker.py line 102). -/
def watermarked_video : String := "watermarked.mp4"

/-- `final_video = f"vidmaker_{timestamp}.mp4"` (vmaker.py line 106). -/
def final_video (timestamp : String) : String :=
  "vidmaker_" ++ timestamp ++ ".mp4"

/-- The `merge_videos` stage as a state transition: the engine is invoked;
on success `merged.mp4` is written, on failure the exception message is
returned alongside the state reached. -/
def run_merge (e : Engine) (st : St) : St × Option String :=
  let st1 := callSt st "merge"
  if e.mergeOk then (addFile st1 merged_video, none) else (st1, some "MergeError")

/-- The `add_watermark` stage as a state transition (probe or encode
failures are both engine-invocation failures here). -/
def run_watermark (e : Engine) (st : St) : St × Option String :=
  let st1 := callSt st "watermark"
  if e.watermarkOk then (addFile st1 watermarked_video, none) else (st1, some "WatermarkError")

/-- The `add_audio` stage as a state transition: a successful trim writes
the `_trimmed` audio file; a successful mux then writes the final artifact.
A failed trim returns `None`, which makes the subsequent `ffmpeg.input`
call raise; a failed mux raises directly. -/
def run_audio (e : Engine) (audio_file fin : String) (st : St) : St × Option String :=
  let st1 := callSt st "audio"
  if e.trimOk then
    let st2 := addFile st1 (trim_audio_output_file audio_file)
    if e.muxOk then (addFile st2 fin, none) else (st2, some "MixError")
  else
    (st1, some "MixError: ffmpeg input is None")

/-- The `try` block of `process_files` (vmaker.py lines 111-116): run the
three stages in order, stopping at the first exception and reporting the
state reached at that point. -/
def try_stages (e : Engine) (audio_file fin : String) (st : St) : St × Option String :=
  match run_merge e st with
  | (st1, some m) => (st1, some m)
  | (st1, none) =>
    match run_watermark e st1 with
    | (st2, some m) => (st2, some m)
    | (st2, none) => run_audio e audio_file fin st2

/-- `process_files` (vmaker.py lines 100-119): compute the artifact names,
pre-clean all three, run the stages inside `try`, and in `finally` clean the
two intermediates; an exception from the stages is re-raised to the caller
after the cleanup (the `Option String` of the result).  `none` overall
would mean a cleanup call itself failed, which never happens. -/
def process_files (e : Engine) (audio_file timestamp : String) (st : St) :
    Option (St × Option String) :=
  let fin := final_video timestamp
  match clean_up_files [merged_video, watermarked_video, fin] st with
  | none => none
  | some st1 =>
    let r := try_stages e audio_file fin st1
    match clean_up_files [merged_video, watermarked_video] r.fst with
    | none => none
    | some st3 => some (st3, r.snd)

/-- A wall-clock instant at the resolution `strftime("%Y%m%d_%H%M%S")` can
see: nothing below seconds. -/
structure DateTime where
  year : Nat
  month : Nat
  day : Nat
  hour : Nat
  minute : Nat
  second : Nat
deriving DecidableEq, Repr

/-- Zero-padded two-digit field of `strftime`. -/
def pad2 (n : Nat) : String :=
  if n < 10 then "0" ++ toString n else toString n

/-- Zero-padded four-digit year field of `strftime`. -/
def pad4 (n : Nat) : String :=
  if n < 10 then "000" ++ toString n
  else if n < 100 then "00" ++ toString n
  else if n < 1000 then "0" ++ toString n
  else toString n

/-- `datetime.datetime.now().strftime("%Y%m%d_%H%M%S")` (vmaker.py line
105) applied to a given instant. -/
def strftime_YmdHMS (t : DateTime) : String :=
  pad4 t.year ++ pad2 t.month ++ pad2 t.day ++ "_" ++
    pad2 t.hour ++ pad2 t.minute ++ pad2 t.second

/-- What the front-end trigger did: either it showed the warning dialog, or
it ran the orchestrator and got its result. -/
inductive FrontEnd where
  | warned : FrontEnd
  | ran : Option (St × Option String) → FrontEnd
deriving DecidableEq

/-- `start_processing` (vmaker.py lines 160-164): warn unless all three
inputs are non-empty (Python truthiness of a list and two strings),
otherwise invoke `process_files`. -/
def start_processing (e : Engine) (timestamp : String) (st : St)
    (video_files : List String) (watermark_image audio_file : String) : FrontEnd :=
  if video_files.isEmpty || watermark_image.isEmpty || audio_file.isEmpty then
    FrontEnd.warned
  else
    FrontEnd.ran (process_files e audio_file timestamp st)

/-! ## Helper lemmas about cleanup, file creation, and call logging -/

theorem clean_up_files_eq_sweep (files : List String) (st : St) :
    clean_up_files files st = some (sweepSt files st) := by
  induction files generalizing st with
  | nil => rfl
  | cons f rest ih =>
    by_cases h : f ∈ st.fs <;>
      simp [clean_up_files, clean_up_step, os_remove, sweepSt, sweep_step, h, ih]

theorem mem_fs_sweep_step (st : St) (f x : String) :
    x ∈ (sweep_step st f).fs ↔ x ∈ st.fs ∧ x ≠ f := by
  by_cases h : f ∈ st.fs
  · simp [sweep_step, h, List.mem_filter]
  · simp only [sweep_step, h, if_neg]
    constructor
    · intro hx
      exact ⟨hx, fun hxf => h (hxf ▸ hx)⟩
    · intro hx
      exact hx.1

theorem mem_fs_sweepSt (files : List String) (st : St) (x : String) :
    x ∈ (sweepSt files st).fs ↔ x ∈ st.fs ∧ x ∉ files := by
  induction files generalizing st with
  | nil => simp [sweepSt]
  | cons f rest ih =>
    simp only [sweepSt, ih, mem_fs_sweep_step, List.mem_cons]
    tauto

theorem sweepSt_calls (files : List String) (st : St) :
    (sweepSt files st).calls = st.calls := by
  induction files generalizing st with
  | nil => rfl
  | cons f rest ih =>
    by_cases h : f ∈ st.fs <;> simp [sweepSt, sweep_step, h, ih]

theorem deleted_mono_sweep_step (st : St) (f x : String)
    (hx : x ∈ st.deleted) : x ∈ (sweep_step st f).deleted := by
  by_cases h : f ∈ st.fs <;> simp [sweep_step, h, hx]

theorem deleted_mono_sweepSt (files : List String) (st : St) (x : String)
    (hx : x ∈ st.deleted) : x ∈ (sweepSt files st).deleted := by
  induction files generalizing st with
  | nil => exact hx
  | cons f rest ih => exact ih _ (deleted_mono_sweep_step st f x hx)

theorem mem_deleted_sweepSt (files : List String) (st : St) (x : String)
    (hmem : x ∈ files) (hfs : x ∈ st.fs) : x ∈ (sweepSt files st).deleted := by
  induction files generalizing st with
  | nil => simp at hmem
  | cons f rest ih =>
    rcases List.mem_cons.mp hmem with rfl | hrest
    · have : x ∈ (sweep_step st x).deleted := by simp [sweep_step, hfs]
      exact deleted_mono_sweepSt rest _ x this
    · by_cases hxf : x = f
      · subst hxf
        have : x ∈ (sweep_step st x).deleted := by simp [sweep_step, hfs]
        exact deleted_mono_sweepSt rest _ x this
      · have hfs1 : x ∈ (sweep_step st f).fs := (mem_fs_sweep_step st f x).mpr ⟨hfs, hxf⟩
        exact ih _ hrest hfs1

theorem sweepSt_of_disjoint (files : List String) (st : St)
    (h : ∀ x, x ∈ files → x ∉ st.fs) : sweepSt files st = st := by
  induction files with
  | nil => rfl
  | cons f rest ih =>
    have hf : f ∉ st.fs := h f (List.mem_cons_self f rest)
    have hstep : sweep_step st f = st := by simp [sweep_step, hf]
    rw [sweepSt, hstep]
    exact ih (fun x hx => h x (List.mem_cons_of_mem f hx))

theorem mem_fs_addFile (st : St) (f x : String) :
    x ∈ (addFile st f).fs ↔ x = f ∨ x ∈ st.fs := by
  by_cases h : f ∈ st.fs
  · simp only [addFile, h, if_pos]
    constructor
    · exact Or.inr
    · rintro (rfl | hx)
      · exact h
      · exact hx
  · simp [addFile, h]

theorem addFile_deleted (st : St) (f : String) : (addFile st f).deleted = st.deleted := rfl

theorem addFile_calls (st : St) (f : String) : (addFile st f).calls = st.calls := rfl

theorem callSt_fs (st : St) (c : String) : (callSt st c).fs = st.fs := rfl

theorem callSt_deleted (st : St) (c : String) : (callSt st c).deleted = st.deleted := rfl

theorem callSt_calls (st : St) (c : String) : (callSt st c).calls = st.calls ++ [c] := rfl

theorem final_video_ne_merged (ts : String) : final_video ts ≠ merged_video := by
  obtain ⟨l⟩ := ts
  intro h
  have h2 := congrArg String.data h
  simp [final_video, merged_video, String.append] at h2

theorem final_video_ne_watermarked (ts : String) : final_video ts ≠ watermarked_video := by
  obtain ⟨l⟩ := ts
  intro h
  have h2 := congrArg String.data h
  simp [final_video, watermarked_video, String.append] at h2

/-! ## Symbolic evaluation of a pipeline run -/

theorem process_files_shape (e : Engine) (audio_file timestamp : String) (st : St) :
    process_files e audio_file timestamp st =
      some (sweepSt [merged_video, watermarked_video]
              (try_stages e audio_file (final_video timestamp)
                (sweepSt [merged_video, watermarked_video, final_video timestamp] st)).fst,
            (try_stages e audio_file (final_video timestamp)
              (sweepSt [merged_video, watermarked_video, final_video timestamp] st)).snd) := by
  simp [process_files, clean_up_files_eq_sweep]

theorem try_stages_merge_fail (e : Engine) (a fin : String) (st : St)
    (h : e.mergeOk = false) :
    try_stages e a fin st = (callSt st "merge", some "MergeError") := by
  simp [try_stages, run_merge, h]

theorem try_stages_wm_fail (e : Engine) (a fin : String) (st : St)
    (h1 : e.mergeOk = true) (h2 : e.watermarkOk = false) :
    try_stages e a fin st =
      (callSt (addFile (callSt st "merge") merged_video) "watermark",
       some "WatermarkError") := by
  simp [try_stages, run_merge, run_watermark, h1, h2]

theorem try_stages_trim_fail (e : Engine) (a fin : String) (st : St)
    (h1 : e.mergeOk = true) (h2 : e.watermarkOk = true) (h3 : e.trimOk = false) :
    try_stages e a fin st =
      (callSt (addFile (callSt (addFile (callSt st "merge") merged_video)
         "watermark") watermarked_video) "audio",
       some "MixError: ffmpeg input is None") := by
  simp [try_stages, run_merge, run_watermark, run_audio, h1, h2, h3]

theorem try_stages_mux_fail (e : Engine) (a fin : String) (st : St)
    (h1 : e.mergeOk = true) (h2 : e.watermarkOk = true) (h3 : e.trimOk = true)
    (h4 : e.muxOk = false) :
    try_stages e a fin st =
      (addFile (callSt (addFile (callSt (addFile (callSt st "merge") merged_video)
         "watermark") watermarked_video) "audio") (trim_audio_output_file a),
       some "MixError") := by
  simp [try_stages, run_merge, run_watermark, run_audio, h1, h2, h3, h4]

theorem try_stages_success (e : Engine) (a fin : String) (st : St)
    (h1 : e.mergeOk = true) (h2 : e.watermarkOk = true) (h3 : e.trimOk = true)
    (h4 : e.muxOk = true) :
    try_stages e a fin st =
      (addFile (addFile (callSt (addFile (callSt (addFile (callSt st "merge")
         merged_video) "watermark") watermarked_video) "audio")
         (trim_audio_output_file a)) fin,
       none) := by
  simp [try_stages, run_merge, run_watermark, run_audio, h1, h2, h3, h4]

/-! ## Claim theorems -/

/-- C1: if any of the three stages raises, the remaining stages are never
invoked (the call log stops at the failing stage), the intermediate-cleanup
step still runs so `merged.mp4` and `watermarked.mp4` are absent afterwards,
no `vidmaker_<timestamp>.mp4` final file exists after the run, and the
exception message is surfaced to the caller.  The hypothesis `hname` records
that the trimmed-audio file name does not shadow the final artifact name
(true for every real `strftime` timestamp). -/
theorem stage_failure_skips_cleans_and_raises
    (e : Engine) (audio_file timestamp : String) (st : St)
    (hname : trim_audio_output_file audio_file ≠ final_video timestamp)
    (hfail : e.mergeOk = false ∨ e.watermarkOk = false ∨ e.trimOk = false ∨ e.muxOk = false) :
    ∃ st' msg,
      process_files e audio_file timestamp st = some (st', some msg) ∧
      merged_video ∉ st'.fs ∧
      watermarked_video ∉ st'.fs ∧
      final_video timestamp ∉ st'.fs ∧
      (e.mergeOk = false → st'.calls = st.calls ++ ["merge"]) ∧
      (e.mergeOk = true → e.watermarkOk = false →
        st'.calls = st.calls ++ ["merge", "watermark"]) ∧
      (e.mergeOk = true → e.watermarkOk = true →
        st'.calls = st.calls ++ ["merge", "watermark", "audio"]) := by
  obtain ⟨mo, wo, tr, mu⟩ := e
  have hshape := process_files_shape ⟨mo, wo, tr, mu⟩ audio_file timestamp st
  cases mo
  · rw [try_stages_merge_fail _ _ _ _ rfl] at hshape
    refine ⟨_, _, hshape, ?_, ?_, ?_, ?_, ?_, ?_⟩
    · simp [mem_fs_sweepSt]
    · simp [mem_fs_sweepSt]
    · simp [mem_fs_sweepSt, callSt_fs]
    · intro _
      simp [sweepSt_calls, callSt_calls]
    · intro h; cases h
    · intro h; cases h
  · cases wo
    · rw [try_stages_wm_fail _ _ _ _ rfl rfl] at hshape
      refine ⟨_, _, hshape, ?_, ?_, ?_, ?_, ?_, ?_⟩
      · simp [mem_fs_sweepSt]
      · simp [mem_fs_sweepSt]
      · simp [mem_fs_sweepSt, mem_fs_addFile, callSt_fs]
        tauto
      · intro h; cases h
      · intro _ _
        simp [sweepSt_calls, callSt_calls, addFile_calls]
      · intro _ h; cases h
    · cases tr
      · rw [try_stages_trim_fail _ _ _ _ rfl rfl rfl] at hshape
        refine ⟨_, _, hshape, ?_, ?_, ?_, ?_, ?_, ?_⟩
        · simp [mem_fs_sweepSt]
        · simp [mem_fs_sweepSt]
        · simp [mem_fs_sweepSt, mem_fs_addFile, callSt_fs]
          tauto
        · intro h; cases h
        · intro _ h; cases h
        · intro _ _
          simp [sweepSt_calls, callSt_calls, addFile_calls]
      · cases mu
        · rw [try_stages_mux_fail _ _ _ _ rfl rfl rfl rfl] at hshape
          refine ⟨_, _, hshape, ?_, ?_, ?_, ?_, ?_, ?_⟩
          · simp [mem_fs_sweepSt]
          · simp [mem_fs_sweepSt]
          · simp [mem_fs_sweepSt, mem_fs_addFile, callSt_fs, Ne.symm hname]
            tauto
          · intro h; cases h
          · intro _ h; cases h
          · intro _ _
            simp [sweepSt_calls, callSt_calls, addFile_calls]
        · simp at hfail

/-- C1 witness: a run whose watermark stage fails (the spec's failure
scenario), evaluated at a concrete engine, audio path, timestamp, and empty
starting filesystem. -/
theorem stage_failure_skips_cleans_and_raises_witness :
    trim_audio_output_file "song.mp3" ≠ final_video "20260101_120000" ∧
    (∃ st' msg,
      process_files ⟨true, false, true, true⟩ "song.mp3" "20260101_120000"
          ⟨[], [], []⟩ = some (st', some msg) ∧
      merged_video ∉ st'.fs ∧
      watermarked_video ∉ st'.fs ∧
      final_video "20260101_120000" ∉ st'.fs ∧
      ((true : Bool) = false → st'.calls = ([] : List String) ++ ["merge"]) ∧
      ((true : Bool) = true → (false : Bool) = false →
        st'.calls = ([] : List String) ++ ["merge", "watermark"]) ∧
      ((true : Bool) = true → (false : Bool) = true →
        st'.calls = ([] : List String) ++ ["merge", "watermark", "audio"])) :=
  ⟨by decide,
   stage_failure_skips_cleans_and_raises ⟨true, false, true, true⟩ "song.mp3"
     "20260101_120000" ⟨[], [], []⟩ (by decide) (Or.inr (Or.inl rfl))⟩

/-- C2 counterexample: the claim "an existing final artifact is never
overwritten" is false.  A first run at timestamp `20260101_120000` leaves
`vidmaker_20260101_120000.mp4` on disk; a second run started within the same
second computes the same name, its pre-run cleanup deletes the existing
final (it appears in the second run's deletion log), and the run then
recreates the file: the first run's output is silently overwritten. -/
theorem rerun_same_second_deletes_previous_final :
    process_files ⟨true, true, true, true⟩ "song.mp3" "20260101_120000"
        ⟨[], [], []⟩ =
      some (⟨["vidmaker_20260101_120000.mp4", "song_trimmed.mp3"],
             ["merged.mp4", "watermarked.mp4"],
             ["merge", "watermark", "audio"]⟩, none) ∧
    final_video "20260101_120000" ∈
      (["vidmaker_20260101_120000.mp4", "song_trimmed.mp3"] : List String) ∧
    final_video "20260101_120000" ∉
      (["merged.mp4", "watermarked.mp4"] : List String) ∧
    process_files ⟨true, true, true, true⟩ "song.mp3" "20260101_120000"
        ⟨["vidmaker_20260101_120000.mp4", "song_trimmed.mp3"],
         ["merged.mp4", "watermarked.mp4"],
         ["merge", "watermark", "audio"]⟩ =
      some (⟨["vidmaker_20260101_120000.mp4", "song_trimmed.mp3"],
             ["merged.mp4", "watermarked.mp4", "vidmaker_20260101_120000.mp4",
              "merged.mp4", "watermarked.mp4"],
             ["merge", "watermark", "audio", "merge", "watermark", "audio"]⟩, none) ∧
    final_video "20260101_120000" ∈
      (["merged.mp4", "watermarked.mp4", "vidmaker_20260101_120000.mp4",
        "merged.mp4", "watermarked.mp4"] : List String) := by
  refine ⟨by decide, by decide, by decide, by decide, by decide⟩

/-- C2 amended: the final name embeds the seconds-resolution
`strftime("%Y%m%d_%H%M%S")` timestamp, so two runs started within the same
second compute the same name; the second run's pre-run cleanup then deletes
the existing final artifact (it enters the deletion log) and the run
recreates it — same-second reruns silently overwrite the previous final
output. -/
theorem same_second_rerun_overwrites_final (e : Engine) (audio_file : String)
    (dt : DateTime) (st : St)
    (h1 : e.mergeOk = true) (h2 : e.watermarkOk = true) (h3 : e.trimOk = true)
    (h4 : e.muxOk = true)
    (hprev : final_video (strftime_YmdHMS dt) ∈ st.fs) :
    ∃ st',
      process_files e audio_file (strftime_YmdHMS dt) st = some (st', none) ∧
      final_video (strftime_YmdHMS dt) ∈ st'.deleted ∧
      final_video (strftime_YmdHMS dt) ∈ st'.fs := by
  have hshape := process_files_shape e audio_file (strftime_YmdHMS dt) st
  rw [try_stages_success _ _ _ _ h1 h2 h3 h4] at hshape
  refine ⟨_, hshape, ?_, ?_⟩
  · apply deleted_mono_sweepSt
    simp only [addFile_deleted, callSt_deleted]
    exact mem_deleted_sweepSt _ _ _ (by simp) hprev
  · rw [mem_fs_sweepSt]
    constructor
    · simp [mem_fs_addFile]
    · simp [final_video_ne_merged, final_video_ne_watermarked]

/-- C2 amended witness: a second all-stages-succeed run at the instant
2026-01-01 12:00:00, starting from a filesystem already holding that
second's final artifact. -/
theorem same_second_rerun_overwrites_final_witness :
    final_video (strftime_YmdHMS ⟨2026, 1, 1, 12, 0, 0⟩) ∈
      (["vidmaker_20260101_120000.mp4"] : List String) ∧
    (∃ st',
      process_files ⟨true, true, true, true⟩ "song.mp3"
          (strftime_YmdHMS ⟨2026, 1, 1, 12, 0, 0⟩)
          ⟨["vidmaker_20260101_120000.mp4"], [], []⟩ = some (st', none) ∧
      final_video (strftime_YmdHMS ⟨2026, 1, 1, 12, 0, 0⟩) ∈ st'.deleted ∧
      final_video (strftime_YmdHMS ⟨2026, 1, 1, 12, 0, 0⟩) ∈ st'.fs) :=
  ⟨by decide,
   same_second_rerun_overwrites_final ⟨true, true, true, true⟩ "song.mp3"
     ⟨2026, 1, 1, 12, 0, 0⟩ ⟨["vidmaker_20260101_120000.mp4"], [], []⟩
     rfl rfl rfl rfl (by decide)⟩

/-- C3: `add_watermark` builds exactly the claimed operation sequence: the
image input loops as a single-frame source (`loop=1`), is converted to the
transparency-capable `rgba` format, gets the fixed opacity multiplier `0.3`
(`colorchannelmixer` with `aa=0.3`), is scaled to the probed video width
with automatic aspect-preserving height (`scale(width, -1)`), trimmed to
the probed video duration, and overlaid at `x=0` and vertical center
`y="(H-h)/2"` (main height minus overlay height, halved). -/
theorem add_watermark_builds_claimed_filter_graph
    (input_video watermark_image output_video : String) (ps : ProbeStream) (d : ℚ)
    (h : ps.duration = some d) :
    add_watermark_cmd input_video watermark_image output_video ps =
      Except.ok
        { streams := [Strm.overlay (Strm.input input_video [])
            (Strm.filt (Strm.filt (Strm.filt (Strm.filt
                (Strm.input watermark_image [("loop", FVal.i 1)])
                "format" [FVal.s "rgba"] [])
                "colorchannelmixer" [] [("aa", FVal.q (3/10))])
                "scale" [FVal.i (probe_width ps), FVal.i (-1)] [])
                "trim" [] [("duration", FVal.q d)])
            [("x", FVal.i 0), ("y", FVal.s "(H-h)/2")]]
          dest := output_video
          kwargs := [("vcodec", FVal.s "h264_videotoolbox"), ("crf", FVal.i 23),
                     ("preset", FVal.s "fast"), ("acodec", FVal.s "aac")] } := by
  simp [add_watermark_cmd, probe_duration, h]

/-- C3 witness: the watermark command for a concrete probed video of
duration 10 s and size 1920×1080. -/
theorem add_watermark_builds_claimed_filter_graph_witness :
    (⟨some 10, some 1920, some 1080⟩ : ProbeStream).duration = some 10 ∧
    add_watermark_cmd "in.mp4" "wm.png" "out.mp4" ⟨some 10, some 1920, some 1080⟩ =
      Except.ok
        { streams := [Strm.overlay (Strm.input "in.mp4" [])
            (Strm.filt (Strm.filt (Strm.filt (Strm.filt
                (Strm.input "wm.png" [("loop", FVal.i 1)])
                "format" [FVal.s "rgba"] [])
                "colorchannelmixer" [] [("aa", FVal.q (3/10))])
                "scale" [FVal.i 1920, FVal.i (-1)] [])
                "trim" [] [("duration", FVal.q 10)])
            [("x", FVal.i 0), ("y", FVal.s "(H-h)/2")]]
          dest := "out.mp4"
          kwargs := [("vcodec", FVal.s "h264_videotoolbox"), ("crf", FVal.i 23),
                     ("preset", FVal.s "fast"), ("acodec", FVal.s "aac")] } :=
  ⟨rfl, add_watermark_builds_claimed_filter_graph "in.mp4" "wm.png" "out.mp4"
    ⟨some 10, some 1920, some 1080⟩ 10 rfl⟩

/-- C4: for every non-empty ordered list of video paths, `merge_videos`
concatenates the inputs in list order into one stream carrying both video
and audio (`concat` with `v=1, a=1`), encoded with constant rate factor 23
and preset "fast". -/
theorem merge_videos_concats_in_order (video_files : List String) (output_file : String)
    (h : video_files ≠ []) :
    merge_videos_cmd video_files output_file =
      { streams := [Strm.concat (video_files.map (fun v => Strm.input v [])) 1 1]
        dest := output_file
        kwargs := [("vcodec", FVal.s "libx264"), ("crf", FVal.i 23),
                   ("preset", FVal.s "fast"), ("acodec", FVal.s "aac")] } ∧
    kwlookup (merge_videos_cmd video_files output_file).kwargs "crf" =
      some (FVal.i 23) ∧
    kwlookup (merge_videos_cmd video_files output_file).kwargs "preset" =
      some (FVal.s "fast") := by
  refine ⟨rfl, ?_, ?_⟩ <;> simp [merge_videos_cmd, kwlookup, List.find?]

/-- C4 witness: merging the two-element list `["a.mp4", "b.mp4"]`. -/
theorem merge_videos_concats_in_order_witness :
    (["a.mp4", "b.mp4"] : List String) ≠ [] ∧
    merge_videos_cmd ["a.mp4", "b.mp4"] "merged.mp4" =
      { streams := [Strm.concat [Strm.input "a.mp4" [], Strm.input "b.mp4" []] 1 1]
        dest := "merged.mp4"
        kwargs := [("vcodec", FVal.s "libx264"), ("crf", FVal.i 23),
                   ("preset", FVal.s "fast"), ("acodec", FVal.s "aac")] } :=
  ⟨by decide, (merge_videos_concats_in_order ["a.mp4", "b.mp4"] "merged.mp4"
    (by decide)).1⟩

/-- C5: when the engine invocation fails, `trim_audio` returns `None` and
prints the error instead of raising: the `ffmpeg.Error` is consumed by the
`except` clause (the `match` on `Except.error` in the embedding), so the
function is total and no exception reaches the caller. -/
theorem trim_audio_soft_failure (input_file : String) (d : ℚ) :
    trim_audio false input_file d =
      (none, ["Error trimming audio: ffmpeg error"]) := rfl

/-- C6: a successful `trim_audio` on a path with base `B` and extension `E`
returns the path `B ++ "_trimmed" ++ E`, and the command it ran takes the
first `d` seconds (`t=d`) of the source with streams copied, not re-encoded
(`codec="copy"`). -/
theorem trim_audio_output_name_and_command (input_file B E : String) (d : ℚ)
    (h : splitext input_file = (B, E)) :
    (trim_audio true input_file d).fst = some (B ++ "_trimmed" ++ E) ∧
    trim_audio_cmd input_file d =
      { streams := [Strm.input input_file []]
        dest := B ++ "_trimmed" ++ E
        kwargs := [("t", FVal.q d), ("codec", FVal.s "copy")] } ∧
    kwlookup (trim_audio_cmd input_file d).kwargs "t" = some (FVal.q d) ∧
    kwlookup (trim_audio_cmd input_file d).kwargs "codec" = some (FVal.s "copy") := by
  refine ⟨?_, ?_, ?_, ?_⟩
  · simp [trim_audio, run_trim_engine, trim_audio_output_file, h]
  · simp [trim_audio_cmd, trim_audio_output_file, h]
  · simp [trim_audio_cmd, kwlookup, List.find?]
  · simp [trim_audio_cmd, kwlookup, List.find?]

/-- C6 witness: trimming `song.mp3` to 5 seconds yields
`song_trimmed.mp3`. -/
theorem trim_audio_output_name_and_command_witness :
    splitext "song.mp3" = ("song", ".mp3") ∧
    (trim_audio true "song.mp3" 5).fst = some ("song" ++ "_trimmed" ++ ".mp3") :=
  ⟨by decide, (trim_audio_output_name_and_command "song.mp3" "song" ".mp3" 5
    (by decide)).1⟩

/-- C7: when the first video stream's metadata omits width or height, the
probe values used by the watermark stage (vmaker.py lines 27-28) default to
1280 and 720 respectively. -/
theorem probe_defaults_width_height (ps : ProbeStream)
    (hw : ps.width = none) (hh : ps.height = none) :
    probe_width ps = 1280 ∧ probe_height ps = 720 := by
  simp [probe_width, probe_height, hw, hh]

/-- C7 witness: a probe record with duration 7 s and no size metadata. -/
theorem probe_defaults_width_height_witness :
    (⟨some 7, none, none⟩ : ProbeStream).width = none ∧
    probe_width ⟨some 7, none, none⟩ = 1280 ∧
    probe_height ⟨some 7, none, none⟩ = 720 :=
  ⟨rfl, (probe_defaults_width_height ⟨some 7, none, none⟩ rfl rfl).1,
    (probe_defaults_width_height ⟨some 7, none, none⟩ rfl rfl).2⟩

/-- C8: `clean_up_files` never fails on any file set (a missing file is
checked with `os.path.exists` first, so it is only skipped), and calling it
a second time on the result is a no-op: the second call returns the same
state unchanged. -/
theorem clean_up_twice_noop (files : List String) (st : St) :
    ∃ st1, clean_up_files files st = some st1 ∧ clean_up_files files st1 = some st1 := by
  refine ⟨sweepSt files st, clean_up_files_eq_sweep files st, ?_⟩
  rw [clean_up_files_eq_sweep]
  rw [sweepSt_of_disjoint]
  intro x hx hmem
  exact ((mem_fs_sweepSt files st x).mp hmem).2 hx

/-- C9: the front-end trigger invokes the orchestrator exactly when the
video list, the watermark path and the audio path are all non-empty; if any
of the three is empty it shows the warning instead and `process_files` is
not invoked. -/
theorem start_processing_gate (e : Engine) (timestamp : String) (st : St)
    (video_files : List String) (watermark_image audio_file : String) :
    ((∃ r, start_processing e timestamp st video_files watermark_image audio_file =
        FrontEnd.ran r) ↔
      (video_files ≠ [] ∧ watermark_image ≠ "" ∧ audio_file ≠ "")) ∧
    (video_files = [] ∨ watermark_image = "" ∨ audio_file = "" →
      start_processing e timestamp st video_files watermark_image audio_file =
        FrontEnd.warned) := by
  by_cases hc : (video_files.isEmpty || watermark_image.isEmpty || audio_file.isEmpty) = true
  · constructor
    · constructor
      · intro hr
        obtain ⟨r, hr⟩ := hr
        rw [start_processing, if_pos hc] at hr
        cases hr
      · intro hall
        exfalso
        simp only [Bool.or_eq_true, List.isEmpty_iff, String.isEmpty_iff] at hc
        tauto
    · intro _
      rw [start_processing, if_pos hc]
  · constructor
    · constructor
      · intro _
        simp only [Bool.or_eq_true, List.isEmpty_iff, String.isEmpty_iff] at hc
        push_neg at hc
        exact ⟨hc.1.1, hc.1.2, hc.2⟩
      · intro _
        exact ⟨_, by rw [start_processing, if_neg hc]⟩
    · intro hsome
      exfalso
      simp only [Bool.or_eq_true, List.isEmpty_iff, String.isEmpty_iff] at hc
      push_neg at hc
      rcases hsome with h | h | h
      · exact hc.1.1 h
      · exact hc.1.2 h
      · exact hc.2 h

/-- C10: in both the watermark and the audio-mix stage the probed duration
is read without a fallback — a record lacking the `duration` entry makes
the stage raise the lookup error before any command is issued — while
width and height are read with defaults 1280 and 720. -/
theorem missing_duration_raises (iv wi ov iva af ova : String) (ps : ProbeStream)
    (tOk : Bool) (hd : ps.duration = none) :
    add_watermark_cmd iv wi ov ps = Except.error "KeyError: duration" ∧
    add_audio_cmd iva af ova ps tOk = Except.error "KeyError: duration" ∧
    probe_width { ps with width := none } = 1280 ∧
    probe_height { ps with height := none } = 720 := by
  refine ⟨?_, ?_, rfl, rfl⟩
  · simp [add_watermark_cmd, probe_duration, hd]
  · simp [add_audio_cmd, probe_duration, hd]

/-- C10 witness: a probe record carrying width and height but no
duration. -/
theorem missing_duration_raises_witness :
    (⟨none, some 640, some 480⟩ : ProbeStream).duration = none ∧
    add_watermark_cmd "v.mp4" "w.png" "o.mp4" ⟨none, some 640, some 480⟩ =
      Except.error "KeyError: duration" ∧
    add_audio_cmd "v.mp4" "a.mp3" "o.mp4" ⟨none, some 640, some 480⟩ true =
      Except.error "KeyError: duration" :=
  ⟨rfl,
   (missing_duration_raises "v.mp4" "w.png" "o.mp4" "v.mp4" "a.mp3" "o.mp4"
     ⟨none, some 640, some 480⟩ true rfl).1,
   (missing_duration_raises "v.mp4" "w.png" "o.mp4" "v.mp4" "a.mp3" "o.mp4"
     ⟨none, some 640, some 480⟩ true rfl).2.1⟩

end Vidmaker
